import Mathlib

/-!
Verification development for the resume-analyzer web application.

The definitions below are a shallow embedding of the TypeScript sources:
  - `src/types.ts`                       — the `AnalysisResult` data model,
  - `src/components/AnalysisDashboard.tsx` — the derived feedback list, tab
    filtering and the per-tab counts,
  - `src/components/FileUpload.tsx`      — the upload boundary,
  - `src/services/geminiService.ts`      — the analysis client and its
    response schema,
  - `App.tsx`                            — the application state machine.
Each definition mirrors the corresponding source function; theorems settle
the specified properties against these definitions.
-/

namespace ResumeAnalyzer

/-! ## Data model (src/types.ts) -/

/-- `priority` union type of an improvement-plan entry (`'High' | 'Medium' | 'Low'`). -/
inductive Priority where
  | High
  | Medium
  | Low
deriving DecidableEq, Repr

/-- `category` union type of an improvement-plan entry
(`'Content' | 'Keywords' | 'Formatting'`). -/
inductive Category where
  | Content
  | Keywords
  | Formatting
deriving DecidableEq, Repr

/-- `contactInfo` object of `AnalysisResult`. -/
structure ContactInfo where
  email : String
  phone : String
  location : String
deriving DecidableEq, Repr

/-- One `workExperience` entry (interface `WorkExperience` in types.ts). -/
structure WorkExperience where
  role : String
  company : String
  duration : String
  description : List String
deriving DecidableEq, Repr

/-- One `improvementPlan` entry of `AnalysisResult`. -/
structure ImprovementPlanItem where
  priority : Priority
  category : Category
  action : String
  explanation : String
  expectedBenefit : String
deriving DecidableEq, Repr

/-- One `skillBreakdown` entry (interface `SkillBreakdown` in types.ts). -/
structure SkillBreakdown where
  category : String
  score : Int
deriving DecidableEq, Repr

/-- The `AnalysisResult` interface from types.ts; numeric scores are modelled
as integers. -/
structure AnalysisResult where
  atsScore : Int
  parsabilityScore : Int
  keywordMatchScore : Int
  candidateName : String
  candidateTitle : String
  contactInfo : ContactInfo
  professionalSummary : String
  workExperience : List WorkExperience
  extractedSkills : List String
  missingKeywords : List String
  strengths : List String
  weaknesses : List String
  formattingIssues : List String
  improvementPlan : List ImprovementPlanItem
  skillBreakdown : List SkillBreakdown
deriving DecidableEq, Repr

/-- `AnalysisStatus` union type (`'idle' | 'analyzing' | 'success' | 'error'`). -/
inductive AnalysisStatus where
  | idle
  | analyzing
  | success
  | error
deriving DecidableEq, Repr

/-! ## Dashboard feedback derivation (src/components/AnalysisDashboard.tsx) -/

/-- The `activeTab` union type of `AnalysisDashboard`
(`'All' | 'Content' | 'Keywords' | 'Formatting'`). -/
inductive Tab where
  | All
  | Content
  | Keywords
  | Formatting
deriving DecidableEq, Repr

/-- The `type` discriminator of a `FeedbackItem`
(`'missing_keywords' | 'formatting' | 'plan'`). -/
inductive FeedbackType where
  | missing_keywords
  | formatting
  | plan
deriving DecidableEq, Repr

/-- The local `FeedbackItem` type of `getFilteredFeedback`.  The TypeScript
field `section` is named `sectionLabel` here because `section` is a Lean
keyword. -/
structure FeedbackItem where
  type : FeedbackType
  priority : Priority
  category : Category
  title : String
  description : String
  keywords : Option (List String)
  benefit : Option String
  sectionLabel : String
deriving DecidableEq, Repr

/-- The string value of a `Category` as it appears in the TypeScript union. -/
def Category.name : Category → String
  | Category.Content => "Content"
  | Category.Keywords => "Keywords"
  | Category.Formatting => "Formatting"

/-- The string value of a `Tab` as it appears in the TypeScript union. -/
def Tab.name : Tab → String
  | Tab.All => "All"
  | Tab.Content => "Content"
  | Tab.Keywords => "Keywords"
  | Tab.Formatting => "Formatting"

/-- JavaScript `s.includes(sub)`: substring containment. -/
def strIncludes (s sub : String) : Bool :=
  decide (sub.toList <:+: s.toList)

/-- The item pushed for `data.missingKeywords` (step 1 of `getFilteredFeedback`). -/
def missingKeywordsItem (data : AnalysisResult) : FeedbackItem :=
  { type := FeedbackType.missing_keywords
    priority := Priority.High
    category := Category.Keywords
    title := "Missing Critical Keywords"
    description := "Your resume is missing " ++ toString data.missingKeywords.length ++
      " top keywords found in typical job descriptions for this role. Adding these can boost your score significantly."
    keywords := some data.missingKeywords
    benefit := none
    sectionLabel := "skills" }

/-- The item pushed for one formatting issue (step 2 of `getFilteredFeedback`). -/
def formattingItem (issue : String) : FeedbackItem :=
  { type := FeedbackType.formatting
    priority := Priority.Medium
    category := Category.Formatting
    title := "Formatting Issue"
    description := issue
    keywords := none
    benefit := none
    sectionLabel := "document" }

/-- The `section` computation for one improvement-plan entry
(step 3 of `getFilteredFeedback`): starts at `'document'`, then the
sequential `if`/`else if` chain of the source. -/
def sectionFor (plan : ImprovementPlanItem) : String :=
  let lowerAction := plan.action.toLower
  if plan.category == Category.Keywords then "skills"
  else if strIncludes lowerAction "summary" || strIncludes lowerAction "objective" then "summary"
  else if plan.category == Category.Content then "experience"
  else "document"

/-- The item pushed for one improvement-plan entry (step 3 of
`getFilteredFeedback`). -/
def planItem (plan : ImprovementPlanItem) : FeedbackItem :=
  { type := FeedbackType.plan
    priority := plan.priority
    category := plan.category
    title := plan.action
    description := plan.explanation
    keywords := none
    benefit := some plan.expectedBenefit
    sectionLabel := sectionFor plan }

/-- The `items` array built by `getFilteredFeedback` before tab filtering.
The source mutates a local array with `push`; each `push` is modelled as an
append at the end of the accumulator. -/
def buildFeedbackItems (data : AnalysisResult) : List FeedbackItem :=
  let items : List FeedbackItem := []
  let items := if data.missingKeywords.length > 0 then items ++ [missingKeywordsItem data] else items
  let items := data.formattingIssues.foldl (fun acc issue => acc ++ [formattingItem issue]) items
  let items := data.improvementPlan.foldl (fun acc plan => acc ++ [planItem plan]) items
  items

/-- `getFilteredFeedback` of `AnalysisDashboard`: builds the item list, then
`if (activeTab === 'All') return items; return items.filter(item =>
item.category === activeTab)`. -/
def getFilteredFeedback (data : AnalysisResult) (activeTab : Tab) : List FeedbackItem :=
  let items := buildFeedbackItems data
  if activeTab == Tab.All then items
  else items.filter (fun item => item.category.name == activeTab.name)

/-- `countContent` of `AnalysisDashboard` (line 116). -/
def countContent (data : AnalysisResult) : Nat :=
  (data.improvementPlan.filter (fun i => i.category == Category.Content)).length

/-- `countKeywords` of `AnalysisDashboard` (line 117). -/
def countKeywords (data : AnalysisResult) : Nat :=
  (if data.missingKeywords.length > 0 then 1 else 0) +
    (data.improvementPlan.filter (fun i => i.category == Category.Keywords)).length

/-- `countFormatting` of `AnalysisDashboard` (line 118). -/
def countFormatting (data : AnalysisResult) : Nat :=
  data.formattingIssues.length +
    (data.improvementPlan.filter (fun i => i.category == Category.Formatting)).length

/-! ### Normal form of the derived feedback list -/

/-- Folding `push`-style appends over a list produces the initial accumulator
followed by the mapped list. -/
theorem foldl_push_eq_map {α β : Type} (f : α → β) (l : List α) (init : List β) :
    l.foldl (fun acc x => acc ++ [f x]) init = init ++ l.map f := by
  induction l generalizing init with
  | nil => simp
  | cons x xs ih => simp [List.foldl, ih, List.append_assoc]

/-- The item list built by `getFilteredFeedback` is the concatenation of the
three item sources, in source order. -/
theorem buildFeedbackItems_eq (data : AnalysisResult) :
    buildFeedbackItems data =
      (if data.missingKeywords.length > 0 then [missingKeywordsItem data] else []) ++
        data.formattingIssues.map formattingItem ++
        data.improvementPlan.map planItem := by
  simp only [buildFeedbackItems, foldl_push_eq_map]
  by_cases h : data.missingKeywords.length > 0 <;> simp [h, List.append_assoc]

/-- Every improvement-plan list splits, by length, into its three category
filters. -/
theorem length_filter_category (l : List ImprovementPlanItem) :
    l.length = (l.filter (fun i => i.category == Category.Content)).length +
      (l.filter (fun i => i.category == Category.Keywords)).length +
      (l.filter (fun i => i.category == Category.Formatting)).length := by
  induction l with
  | nil => rfl
  | cons x xs ih =>
    rcases hx : x.category <;>
      simp [List.filter_cons, hx, ih] <;> omega

/-! ### Sample data used by witnesses -/

/-- A concrete `AnalysisResult` with no missing keywords, no formatting issues
and no plan entries. -/
def sampleResult : AnalysisResult :=
  { atsScore := 72
    parsabilityScore := 90
    keywordMatchScore := 60
    candidateName := "Jane Doe"
    candidateTitle := "Engineer"
    contactInfo := { email := "jane@example.com", phone := "555", location := "Austin" }
    professionalSummary := "Summary."
    workExperience := []
    extractedSkills := []
    missingKeywords := []
    strengths := []
    weaknesses := []
    formattingIssues := []
    improvementPlan := []
    skillBreakdown := [] }

/-- A concrete improvement-plan entry with category `Keywords`. -/
def samplePlanK : ImprovementPlanItem :=
  { priority := Priority.High
    category := Category.Keywords
    action := "Add cloud tooling"
    explanation := "Add the missing tools."
    expectedBenefit := "Could boost score by ~5 points" }

/-! ### Claims about the dashboard derivation -/

/-- C2: for every `AnalysisResult`, the number of derived feedback items shown
for tab "All" equals `countContent + countKeywords + countFormatting`, the sum
of the three per-tab counts computed by `AnalysisDashboard`. -/
theorem all_tab_count_eq_sum (data : AnalysisResult) :
    (getFilteredFeedback data Tab.All).length =
      countContent data + countKeywords data + countFormatting data := by
  have hsplit := length_filter_category data.improvementPlan
  simp only [getFilteredFeedback, buildFeedbackItems_eq,
    countContent, countKeywords, countFormatting]
  by_cases h : data.missingKeywords.length > 0 <;> simp [h] <;> omega

/-- C3: filtering the derived feedback list by a category tab yields exactly
the items of the unfiltered list whose `category` field equals that category
(as a `List.filter`, hence in the same relative order, witnessed also by the
`Sublist` conjuncts), and the "All" tab returns the full list unchanged. -/
theorem filter_tab_spec (data : AnalysisResult) :
    getFilteredFeedback data Tab.All = buildFeedbackItems data ∧
    getFilteredFeedback data Tab.Content =
      (buildFeedbackItems data).filter (fun i => i.category == Category.Content) ∧
    getFilteredFeedback data Tab.Keywords =
      (buildFeedbackItems data).filter (fun i => i.category == Category.Keywords) ∧
    getFilteredFeedback data Tab.Formatting =
      (buildFeedbackItems data).filter (fun i => i.category == Category.Formatting) ∧
    (getFilteredFeedback data Tab.Content).Sublist (getFilteredFeedback data Tab.All) ∧
    (getFilteredFeedback data Tab.Keywords).Sublist (getFilteredFeedback data Tab.All) ∧
    (getFilteredFeedback data Tab.Formatting).Sublist (getFilteredFeedback data Tab.All) := by
  refine ⟨rfl, ?_, ?_, ?_, ?_, ?_, ?_⟩ <;>
    first
      | exact List.filter_congr (fun item _ => by
          cases hc : item.category <;> simp [Category.name, Tab.name, hc])
      | exact List.filter_sublist _

/-- C4: the derived feedback list is the concatenation, in fixed order, of
(1) exactly one "Missing Critical Keywords" item of priority High and category
Keywords carrying the full keyword list, present iff `missingKeywords` is
non-empty; (2) one Medium/Formatting item per string of `formattingIssues`;
(3) one item per `improvementPlan` entry carrying that entry's own priority
and category. -/
theorem feedback_construction (data : AnalysisResult) :
    buildFeedbackItems data =
      (if data.missingKeywords ≠ [] then [missingKeywordsItem data] else []) ++
        data.formattingIssues.map formattingItem ++
        data.improvementPlan.map planItem ∧
    (missingKeywordsItem data).priority = Priority.High ∧
    (missingKeywordsItem data).category = Category.Keywords ∧
    (missingKeywordsItem data).title = "Missing Critical Keywords" ∧
    (missingKeywordsItem data).keywords = some data.missingKeywords ∧
    (∀ issue : String, (formattingItem issue).priority = Priority.Medium ∧
      (formattingItem issue).category = Category.Formatting ∧
      (formattingItem issue).description = issue) ∧
    (∀ plan : ImprovementPlanItem, (planItem plan).priority = plan.priority ∧
      (planItem plan).category = plan.category) ∧
    (data.missingKeywords ≠ [] →
      ((buildFeedbackItems data).filter
        (fun i => i.type == FeedbackType.missing_keywords)).length = 1) ∧
    (data.missingKeywords = [] →
      ∀ i ∈ buildFeedbackItems data, i.type ≠ FeedbackType.missing_keywords) := by
  have hmap_fmt : ∀ l : List String,
      (l.map formattingItem).filter (fun i => i.type == FeedbackType.missing_keywords) = [] := by
    intro l
    induction l with
    | nil => rfl
    | cons x xs ih => simp [formattingItem, ih]
  have hmap_plan : ∀ l : List ImprovementPlanItem,
      (l.map planItem).filter (fun i => i.type == FeedbackType.missing_keywords) = [] := by
    intro l
    induction l with
    | nil => rfl
    | cons x xs ih => simp [planItem, ih]
  refine ⟨?_, rfl, rfl, rfl, rfl, fun issue => ⟨rfl, rfl, rfl⟩,
    fun plan => ⟨rfl, rfl⟩, ?_, ?_⟩
  · rw [buildFeedbackItems_eq]
    by_cases h : data.missingKeywords = []
    · simp [h]
    · simp [h, List.length_pos.mpr h]
  · intro h
    rw [buildFeedbackItems_eq]
    have hlen : data.missingKeywords.length > 0 := List.length_pos.mpr h
    simp [hlen, List.filter_append, hmap_fmt, hmap_plan, missingKeywordsItem]
  · intro h i hi
    rw [buildFeedbackItems_eq] at hi
    simp [h] at hi
    rcases hi with ⟨issue, _, rfl⟩ | ⟨plan, _, rfl⟩ <;> simp [formattingItem, planItem]

/-- C5: for every improvement-plan entry, the derived item's document section
label follows the decision order of the source: category Keywords yields
"skills"; otherwise an action text containing "summary" or "objective"
(checked on the lowercased action, as in the source) yields "summary";
otherwise category Content yields "experience"; every remaining entry yields
"document". -/
theorem section_label_decision (plan : ImprovementPlanItem) :
    (plan.category = Category.Keywords → (planItem plan).sectionLabel = "skills") ∧
    (plan.category ≠ Category.Keywords →
      (strIncludes plan.action.toLower "summary" ||
        strIncludes plan.action.toLower "objective") = true →
      (planItem plan).sectionLabel = "summary") ∧
    (plan.category ≠ Category.Keywords →
      (strIncludes plan.action.toLower "summary" ||
        strIncludes plan.action.toLower "objective") = false →
      plan.category = Category.Content →
      (planItem plan).sectionLabel = "experience") ∧
    (plan.category ≠ Category.Keywords →
      (strIncludes plan.action.toLower "summary" ||
        strIncludes plan.action.toLower "objective") = false →
      plan.category ≠ Category.Content →
      (planItem plan).sectionLabel = "document") := by
  refine ⟨fun h1 => ?_, fun h1 h2 => ?_, fun h1 h2 h3 => ?_, fun h1 h2 h3 => ?_⟩
  · simp [planItem, sectionFor, h1]
  · simp [planItem, sectionFor, h1, h2, beq_iff_eq]
  · simp [planItem, sectionFor, h1, h2, h3, beq_iff_eq]
  · simp [planItem, sectionFor, h1, h2, h3, beq_iff_eq]

/-- Witness for C4 at `sampleResult`, whose `missingKeywords` list is empty:
no "Missing Critical Keywords" item is derived. -/
theorem feedback_construction_witness :
    ∀ i ∈ buildFeedbackItems sampleResult, i.type ≠ FeedbackType.missing_keywords :=
  (feedback_construction sampleResult).2.2.2.2.2.2.2.2 rfl

/-- Witness for C5 at `samplePlanK`, whose category is Keywords: the section
label is "skills". -/
theorem section_label_decision_witness :
    (planItem samplePlanK).sectionLabel = "skills" :=
  (section_label_decision samplePlanK).1 rfl

/-! ## Analysis client (src/services/geminiService.ts)

The service parses the model's textual response with `JSON.parse` and returns
the parsed value with an unchecked type assertion (`as AnalysisResult`).  JSON
values are modelled by `Json`; the platform primitive `JSON.parse` is
abstracted as a parameter `jsonParse : String → Option Json` returning `none`
exactly when `JSON.parse` throws. -/

/-- A JSON value, as produced by `JSON.parse`; numbers are modelled as
integers. -/
inductive Json where
  | null
  | bool (b : Bool)
  | num (n : Int)
  | str (s : String)
  | arr (elems : List Json)
  | obj (fields : List (String × Json))

/-- Property access on a parsed JSON object (`undefined` on non-objects or
absent keys). -/
def Json.getField : Json → String → Option Json
  | Json.obj fields, key => List.lookup key fields
  | _, _ => none

/-- A JSON value is a string. -/
def Json.isStr : Json → Bool
  | Json.str _ => true
  | _ => false

/-- A JSON value is a number. -/
def Json.isNum : Json → Bool
  | Json.num _ => true
  | _ => false

/-- Read a JSON string. -/
def Json.asStr : Json → Option String
  | Json.str s => some s
  | _ => none

/-- Read a JSON number. -/
def Json.asNum : Json → Option Int
  | Json.num n => some n
  | _ => none

/-- Decode every element of a JSON array, failing if any element fails. -/
def decodeList {β : Type} (f : Json → Option β) : List Json → Option (List β)
  | [] => some []
  | x :: xs =>
    match f x, decodeList f xs with
    | some b, some bs => some (b :: bs)
    | _, _ => none

/-- The required-field check of `ANALYSIS_SCHEMA`: the key is present and its
value satisfies the field's type. -/
def checkField (j : Json) (key : String) (p : Json → Bool) : Bool :=
  match j.getField key with
  | some v => p v
  | none => false

/-- `Type.ARRAY` with `items: {type: Type.STRING}`. -/
def isStrArr : Json → Bool
  | Json.arr xs => xs.all Json.isStr
  | _ => false

/-- The `contactInfo` object schema: required `email`, `phone`, `location`,
all strings. -/
def isContactObj (v : Json) : Bool :=
  checkField v "email" Json.isStr && checkField v "phone" Json.isStr &&
    checkField v "location" Json.isStr

/-- The `workExperience` item schema: required `role`, `company`, `duration`
strings and `description` string array. -/
def isWorkObj (v : Json) : Bool :=
  checkField v "role" Json.isStr && checkField v "company" Json.isStr &&
    checkField v "duration" Json.isStr && checkField v "description" isStrArr

/-- The `priority` enum of the schema: `["High", "Medium", "Low"]`. -/
def isPriorityStr : Json → Bool
  | Json.str s => s == "High" || s == "Medium" || s == "Low"
  | _ => false

/-- The `category` enum of the schema:
`["Content", "Keywords", "Formatting"]`. -/
def isCategoryStr : Json → Bool
  | Json.str s => s == "Content" || s == "Keywords" || s == "Formatting"
  | _ => false

/-- The `improvementPlan` item schema: required enum `priority`, enum
`category` and strings `action`, `explanation`, `expectedBenefit`. -/
def isPlanObj (v : Json) : Bool :=
  checkField v "priority" isPriorityStr && checkField v "category" isCategoryStr &&
    checkField v "action" Json.isStr && checkField v "explanation" Json.isStr &&
    checkField v "expectedBenefit" Json.isStr

/-- The `skillBreakdown` item schema: required `category` string and `score`
number. -/
def isSkillObj (v : Json) : Bool :=
  checkField v "category" Json.isStr && checkField v "score" Json.isNum

/-- `Type.ARRAY` whose items satisfy `p`. -/
def isArrOf (p : Json → Bool) : Json → Bool
  | Json.arr xs => xs.all p
  | _ => false

/-- A payload satisfies `ANALYSIS_SCHEMA`: every entry of the schema's
`required` list is present with the declared type. -/
def satisfiesAnalysisSchema (j : Json) : Bool :=
  checkField j "atsScore" Json.isNum &&
    checkField j "parsabilityScore" Json.isNum &&
    checkField j "keywordMatchScore" Json.isNum &&
    checkField j "candidateName" Json.isStr &&
    checkField j "candidateTitle" Json.isStr &&
    checkField j "contactInfo" isContactObj &&
    checkField j "professionalSummary" Json.isStr &&
    checkField j "workExperience" (isArrOf isWorkObj) &&
    checkField j "extractedSkills" isStrArr &&
    checkField j "missingKeywords" isStrArr &&
    checkField j "strengths" isStrArr &&
    checkField j "weaknesses" isStrArr &&
    checkField j "formattingIssues" isStrArr &&
    checkField j "improvementPlan" (isArrOf isPlanObj) &&
    checkField j "skillBreakdown" (isArrOf isSkillObj)

/-! ### Deserialization into `AnalysisResult`

The TypeScript code performs no explicit deserialization (the parsed object is
cast with `as AnalysisResult`); the decoder below expresses "deserializes into
an `AnalysisResult` with all required fields populated" by reading each field
of the `AnalysisResult` interface out of the parsed JSON value. -/

/-- Read a string-typed field. -/
def getStrField (j : Json) (key : String) : Option String :=
  (j.getField key).bind Json.asStr

/-- Read a number-typed field. -/
def getNumField (j : Json) (key : String) : Option Int :=
  (j.getField key).bind Json.asNum

/-- Read a string-array value. -/
def asStrList : Json → Option (List String)
  | Json.arr xs => decodeList Json.asStr xs
  | _ => none

/-- Read a string-array field. -/
def getStrListField (j : Json) (key : String) : Option (List String) :=
  (j.getField key).bind asStrList

/-- Read an array value, decoding each element with `f`. -/
def asArrOf {β : Type} (f : Json → Option β) : Json → Option (List β)
  | Json.arr xs => decodeList f xs
  | _ => none

/-- Read an array field, decoding each element with `f`. -/
def getListField {β : Type} (j : Json) (key : String) (f : Json → Option β) :
    Option (List β) :=
  (j.getField key).bind (asArrOf f)

/-- Decode the `contactInfo` object. -/
def decodeContact (v : Json) : Option ContactInfo := do
  let email ← getStrField v "email"
  let phone ← getStrField v "phone"
  let location ← getStrField v "location"
  pure { email := email, phone := phone, location := location }

/-- Decode one `workExperience` entry. -/
def decodeWork (v : Json) : Option WorkExperience := do
  let role ← getStrField v "role"
  let company ← getStrField v "company"
  let duration ← getStrField v "duration"
  let description ← getStrListField v "description"
  pure { role := role, company := company, duration := duration,
         description := description }

/-- Decode a `priority` enum string. -/
def decodePriority : Json → Option Priority
  | Json.str "High" => some Priority.High
  | Json.str "Medium" => some Priority.Medium
  | Json.str "Low" => some Priority.Low
  | _ => none

/-- Decode a `category` enum string. -/
def decodeCategory : Json → Option Category
  | Json.str "Content" => some Category.Content
  | Json.str "Keywords" => some Category.Keywords
  | Json.str "Formatting" => some Category.Formatting
  | _ => none

/-- Decode one `improvementPlan` entry. -/
def decodePlanItem (v : Json) : Option ImprovementPlanItem := do
  let priority ← (v.getField "priority").bind decodePriority
  let category ← (v.getField "category").bind decodeCategory
  let action ← getStrField v "action"
  let explanation ← getStrField v "explanation"
  let expectedBenefit ← getStrField v "expectedBenefit"
  pure { priority := priority, category := category, action := action,
         explanation := explanation, expectedBenefit := expectedBenefit }

/-- Decode one `skillBreakdown` entry. -/
def decodeSkill (v : Json) : Option SkillBreakdown := do
  let category ← getStrField v "category"
  let score ← getNumField v "score"
  pure { category := category, score := score }

/-- Decode a full `AnalysisResult` from a parsed response payload. -/
def decodeAnalysisResult (j : Json) : Option AnalysisResult := do
  let atsScore ← getNumField j "atsScore"
  let parsabilityScore ← getNumField j "parsabilityScore"
  let keywordMatchScore ← getNumField j "keywordMatchScore"
  let candidateName ← getStrField j "candidateName"
  let candidateTitle ← getStrField j "candidateTitle"
  let contactInfo ← (j.getField "contactInfo").bind decodeContact
  let professionalSummary ← getStrField j "professionalSummary"
  let workExperience ← getListField j "workExperience" decodeWork
  let extractedSkills ← getStrListField j "extractedSkills"
  let missingKeywords ← getStrListField j "missingKeywords"
  let strengths ← getStrListField j "strengths"
  let weaknesses ← getStrListField j "weaknesses"
  let formattingIssues ← getStrListField j "formattingIssues"
  let improvementPlan ← getListField j "improvementPlan" decodePlanItem
  let skillBreakdown ← getListField j "skillBreakdown" decodeSkill
  pure { atsScore := atsScore, parsabilityScore := parsabilityScore,
         keywordMatchScore := keywordMatchScore, candidateName := candidateName,
         candidateTitle := candidateTitle, contactInfo := contactInfo,
         professionalSummary := professionalSummary, workExperience := workExperience,
         extractedSkills := extractedSkills, missingKeywords := missingKeywords,
         strengths := strengths, weaknesses := weaknesses,
         formattingIssues := formattingIssues, improvementPlan := improvementPlan,
         skillBreakdown := skillBreakdown }

/-! ### The `analyzeResumeWithGemini` operation -/

/-- The errors `analyzeResumeWithGemini` can throw; `ε` is the type of
transport-level failures of the external call, which the function surfaces
unchanged.  `configuration` is the missing-credential error, `emptyResponse`
the missing-text error, `malformed` a `JSON.parse` failure on the raw text. -/
inductive AnalyzeError (ε : Type) where
  | configuration (msg : String)
  | transport (err : ε)
  | emptyResponse (msg : String)
  | malformed (raw : String)
deriving DecidableEq

/-- The outcome of the one external `generateContent` call: either it resolves
with a response whose `text` may be absent, or it rejects with a
transport-level failure. -/
inductive ServiceResult (ε : Type) where
  | resolved (text : Option String)
  | rejected (err : ε)
deriving DecidableEq

/-- JavaScript falsiness of an optional string (`!apiKey`, `!text`):
`undefined` or the empty string. -/
def isFalsyStr : Option String → Bool
  | none => true
  | some s => s == ""

/-- The message of the missing-credential error thrown by the service. -/
def apiKeyMissingMessage : String :=
  "API Key is missing. Please check your environment configuration."

/-- The message of the empty-response error thrown by the service. -/
def noResponseMessage : String := "No response extracted from Gemini."

/-- `analyzeResumeWithGemini` (src/services/geminiService.ts): throws the
configuration error when the credential is falsy, before the request is
issued (the outcome is then independent of `response`); otherwise issues the
call, rethrows a rejection unchanged, throws the empty-response error when the
resolved text is falsy, throws a parse failure when `JSON.parse` throws, and
otherwise returns the parsed value with no further validation. -/
def analyzeResumeWithGemini {ε : Type} (jsonParse : String → Option Json)
    (apiKey : Option String) (response : ServiceResult ε) :
    Except (AnalyzeError ε) Json :=
  if isFalsyStr apiKey then
    Except.error (AnalyzeError.configuration apiKeyMissingMessage)
  else
    match response with
    | ServiceResult.rejected e => Except.error (AnalyzeError.transport e)
    | ServiceResult.resolved text =>
      if isFalsyStr text then
        Except.error (AnalyzeError.emptyResponse noResponseMessage)
      else
        match text with
        | none => Except.error (AnalyzeError.emptyResponse noResponseMessage)
        | some t =>
          match jsonParse t with
          | none => Except.error (AnalyzeError.malformed t)
          | some j => Except.ok j

/-! ## Upload boundary (src/components/FileUpload.tsx) -/

/-- The part of a browser `File` the upload boundary inspects: its MIME type
and its size in bytes. -/
structure JsFile where
  type : String
  size : Nat
deriving DecidableEq, Repr

/-- What a `FileUpload` handler does with a file list: invoke the
`onFileSelect` callback, show the rejection alert, or do nothing. -/
inductive UploadOutcome where
  | selected (file : JsFile)
  | alerted (msg : String)
  | ignored
deriving DecidableEq, Repr

/-- The alert shown for a non-PDF file. -/
def pdfAlertMessage : String := "Please upload a valid PDF file."

/-- `handleDrop` of `FileUpload`: returns early when disabled or when no file
was dropped; selects the first file iff its MIME type is
`application/pdf`, otherwise alerts. -/
def handleDrop (disabled : Bool) (files : List JsFile) : UploadOutcome :=
  if disabled then UploadOutcome.ignored
  else
    match files with
    | [] => UploadOutcome.ignored
    | file :: _ =>
      if file.type == "application/pdf" then UploadOutcome.selected file
      else UploadOutcome.alerted pdfAlertMessage

/-- `handleInputChange` of `FileUpload`: selects the first chosen file iff its
MIME type is `application/pdf`, otherwise alerts. -/
def handleInputChange (files : List JsFile) : UploadOutcome :=
  match files with
  | [] => UploadOutcome.ignored
  | file :: _ =>
    if file.type == "application/pdf" then UploadOutcome.selected file
    else UploadOutcome.alerted pdfAlertMessage

/-! ### Schema conformance implies a fully populated decode -/

theorem asStr_isSome {v : Json} (h : Json.isStr v = true) : (Json.asStr v).isSome := by
  cases v <;> simp_all [Json.isStr, Json.asStr]

theorem asNum_isSome {v : Json} (h : Json.isNum v = true) : (Json.asNum v).isSome := by
  cases v <;> simp_all [Json.isNum, Json.asNum]

/-- A required field whose value satisfies `p` decodes with any `p`-complete
decoder. -/
theorem bindField_isSome {β : Type} (p : Json → Bool) (f : Json → Option β)
    (hf : ∀ v, p v = true → (f v).isSome) (j : Json) (key : String)
    (h : checkField j key p = true) : ((j.getField key).bind f).isSome := by
  unfold checkField at h
  cases hv : j.getField key with
  | none => rw [hv] at h; simp at h
  | some v => rw [hv] at h; simpa using hf v h

theorem decodeList_isSome {β : Type} {p : Json → Bool} {f : Json → Option β}
    (hf : ∀ v, p v = true → (f v).isSome) :
    ∀ xs : List Json, xs.all p = true → (decodeList f xs).isSome := by
  intro xs hxs
  induction xs with
  | nil => simp [decodeList]
  | cons x xs ih =>
    simp only [List.all_cons, Bool.and_eq_true] at hxs
    obtain ⟨b, hb⟩ := Option.isSome_iff_exists.mp (hf x hxs.1)
    obtain ⟨bs, hbs⟩ := Option.isSome_iff_exists.mp (ih hxs.2)
    simp [decodeList, hb, hbs]

theorem asStrList_isSome {v : Json} (h : isStrArr v = true) : (asStrList v).isSome := by
  cases v
  case arr xs => exact decodeList_isSome (fun w hw => asStr_isSome hw) xs h
  all_goals simp [isStrArr] at h

theorem asArrOf_isSome {β : Type} {p : Json → Bool} {f : Json → Option β}
    (hf : ∀ w, p w = true → (f w).isSome) {v : Json} (h : isArrOf p v = true) :
    (asArrOf f v).isSome := by
  cases v
  case arr xs => exact decodeList_isSome hf xs h
  all_goals simp [isArrOf] at h

theorem getStrField_some (j : Json) (key : String)
    (h : checkField j key Json.isStr = true) : ∃ s, getStrField j key = some s :=
  Option.isSome_iff_exists.mp
    (bindField_isSome Json.isStr Json.asStr (fun _ hv => asStr_isSome hv) j key h)

theorem getNumField_some (j : Json) (key : String)
    (h : checkField j key Json.isNum = true) : ∃ n, getNumField j key = some n :=
  Option.isSome_iff_exists.mp
    (bindField_isSome Json.isNum Json.asNum (fun _ hv => asNum_isSome hv) j key h)

theorem getStrListField_some (j : Json) (key : String)
    (h : checkField j key isStrArr = true) : ∃ l, getStrListField j key = some l :=
  Option.isSome_iff_exists.mp
    (bindField_isSome isStrArr asStrList (fun _ hv => asStrList_isSome hv) j key h)

theorem decodeContact_isSome {v : Json} (h : isContactObj v = true) :
    (decodeContact v).isSome := by
  simp only [isContactObj, Bool.and_eq_true] at h
  obtain ⟨⟨h1, h2⟩, h3⟩ := h
  obtain ⟨e, he⟩ := getStrField_some v "email" h1
  obtain ⟨p, hp⟩ := getStrField_some v "phone" h2
  obtain ⟨l, hl⟩ := getStrField_some v "location" h3
  simp [decodeContact, he, hp, hl]

theorem decodeWork_isSome {v : Json} (h : isWorkObj v = true) :
    (decodeWork v).isSome := by
  simp only [isWorkObj, Bool.and_eq_true] at h
  obtain ⟨⟨⟨h1, h2⟩, h3⟩, h4⟩ := h
  obtain ⟨r, hr⟩ := getStrField_some v "role" h1
  obtain ⟨c, hc⟩ := getStrField_some v "company" h2
  obtain ⟨d, hd⟩ := getStrField_some v "duration" h3
  obtain ⟨ds, hds⟩ := getStrListField_some v "description" h4
  simp [decodeWork, hr, hc, hd, hds]

theorem decodePriority_isSome {v : Json} (h : isPriorityStr v = true) :
    (decodePriority v).isSome := by
  cases v
  case str s =>
    simp only [isPriorityStr, Bool.or_eq_true, beq_iff_eq] at h
    rcases h with (h | h) | h <;> subst h <;> rfl
  all_goals simp [isPriorityStr] at h

theorem decodeCategory_isSome {v : Json} (h : isCategoryStr v = true) :
    (decodeCategory v).isSome := by
  cases v
  case str s =>
    simp only [isCategoryStr, Bool.or_eq_true, beq_iff_eq] at h
    rcases h with (h | h) | h <;> subst h <;> rfl
  all_goals simp [isCategoryStr] at h

theorem decodePlanItem_isSome {v : Json} (h : isPlanObj v = true) :
    (decodePlanItem v).isSome := by
  simp only [isPlanObj, Bool.and_eq_true] at h
  obtain ⟨⟨⟨⟨h1, h2⟩, h3⟩, h4⟩, h5⟩ := h
  obtain ⟨p, hp⟩ := Option.isSome_iff_exists.mp
    (bindField_isSome isPriorityStr decodePriority (fun _ hv => decodePriority_isSome hv) v "priority" h1)
  obtain ⟨c, hc⟩ := Option.isSome_iff_exists.mp
    (bindField_isSome isCategoryStr decodeCategory (fun _ hv => decodeCategory_isSome hv) v "category" h2)
  obtain ⟨a, ha⟩ := getStrField_some v "action" h3
  obtain ⟨ex, hex⟩ := getStrField_some v "explanation" h4
  obtain ⟨b, hb⟩ := getStrField_some v "expectedBenefit" h5
  simp [decodePlanItem, hp, hc, ha, hex, hb]

theorem decodeSkill_isSome {v : Json} (h : isSkillObj v = true) :
    (decodeSkill v).isSome := by
  simp only [isSkillObj, Bool.and_eq_true] at h
  obtain ⟨h1, h2⟩ := h
  obtain ⟨c, hc⟩ := getStrField_some v "category" h1
  obtain ⟨n, hn⟩ := getNumField_some v "score" h2
  simp [decodeSkill, hc, hn]

theorem getListField_some {β : Type} (j : Json) (key : String)
    {p : Json → Bool} (f : Json → Option β) (hf : ∀ w, p w = true → (f w).isSome)
    (h : checkField j key (isArrOf p) = true) : ∃ l, getListField j key f = some l :=
  Option.isSome_iff_exists.mp
    (bindField_isSome (isArrOf p) (asArrOf f) (fun _ hv => asArrOf_isSome hf hv) j key h)

/-- A payload satisfying `ANALYSIS_SCHEMA` decodes into an `AnalysisResult`
with every field populated. -/
theorem decode_isSome_of_schema {j : Json} (h : satisfiesAnalysisSchema j = true) :
    (decodeAnalysisResult j).isSome := by
  simp only [satisfiesAnalysisSchema, Bool.and_eq_true] at h
  obtain ⟨⟨⟨⟨⟨⟨⟨⟨⟨⟨⟨⟨⟨⟨h1, h2⟩, h3⟩, h4⟩, h5⟩, h6⟩, h7⟩, h8⟩, h9⟩, h10⟩,
    h11⟩, h12⟩, h13⟩, h14⟩, h15⟩ := h
  obtain ⟨a1, e1⟩ := getNumField_some j "atsScore" h1
  obtain ⟨a2, e2⟩ := getNumField_some j "parsabilityScore" h2
  obtain ⟨a3, e3⟩ := getNumField_some j "keywordMatchScore" h3
  obtain ⟨a4, e4⟩ := getStrField_some j "candidateName" h4
  obtain ⟨a5, e5⟩ := getStrField_some j "candidateTitle" h5
  obtain ⟨a6, e6⟩ := Option.isSome_iff_exists.mp
    (bindField_isSome isContactObj decodeContact (fun _ hv => decodeContact_isSome hv)
      j "contactInfo" h6)
  obtain ⟨a7, e7⟩ := getStrField_some j "professionalSummary" h7
  obtain ⟨a8, e8⟩ := getListField_some j "workExperience" decodeWork
    (fun _ hv => decodeWork_isSome hv) h8
  obtain ⟨a9, e9⟩ := getStrListField_some j "extractedSkills" h9
  obtain ⟨a10, e10⟩ := getStrListField_some j "missingKeywords" h10
  obtain ⟨a11, e11⟩ := getStrListField_some j "strengths" h11
  obtain ⟨a12, e12⟩ := getStrListField_some j "weaknesses" h12
  obtain ⟨a13, e13⟩ := getStrListField_some j "formattingIssues" h13
  obtain ⟨a14, e14⟩ := getListField_some j "improvementPlan" decodePlanItem
    (fun _ hv => decodePlanItem_isSome hv) h14
  obtain ⟨a15, e15⟩ := getListField_some j "skillBreakdown" decodeSkill
    (fun _ hv => decodeSkill_isSome hv) h15
  simp [decodeAnalysisResult, e1, e2, e3, e4, e5, e6, e7, e8, e9, e10, e11,
    e12, e13, e14, e15]

/-- A concrete response payload satisfying every required field of
`ANALYSIS_SCHEMA`. -/
def sampleJson : Json :=
  Json.obj
    [("atsScore", Json.num 72),
     ("parsabilityScore", Json.num 90),
     ("keywordMatchScore", Json.num 60),
     ("candidateName", Json.str "Jane Doe"),
     ("candidateTitle", Json.str "Engineer"),
     ("contactInfo", Json.obj
       [("email", Json.str "jane@example.com"),
        ("phone", Json.str "555"),
        ("location", Json.str "Austin")]),
     ("professionalSummary", Json.str "Summary."),
     ("workExperience", Json.arr
       [Json.obj
         [("role", Json.str "Engineer"),
          ("company", Json.str "Acme"),
          ("duration", Json.str "2020-2024"),
          ("description", Json.arr [Json.str "Built things."])]]),
     ("extractedSkills", Json.arr [Json.str "Go"]),
     ("missingKeywords", Json.arr [Json.str "Kubernetes", Json.str "Terraform"]),
     ("strengths", Json.arr []),
     ("weaknesses", Json.arr []),
     ("formattingIssues", Json.arr []),
     ("improvementPlan", Json.arr
       [Json.obj
         [("priority", Json.str "High"),
          ("category", Json.str "Keywords"),
          ("action", Json.str "Add cloud tooling"),
          ("explanation", Json.str "Add the missing tools."),
          ("expectedBenefit", Json.str "Could boost score by ~5 points")]]),
     ("skillBreakdown", Json.arr
       [Json.obj [("category", Json.str "Backend"), ("score", Json.num 70)]])]

/-- C1 counterexample: with the credential present and the external service
returning the syntactically valid JSON text "{}" — whose parsed value, the
empty object, is missing every required field, e.g. `atsScore` — the analyze
operation returns the payload as its result instead of rejecting it as a
malformed-response error. -/
theorem missing_fields_not_rejected :
    @analyzeResumeWithGemini String (fun _ => some (Json.obj [])) (some "key")
        (ServiceResult.resolved (some "{}")) = Except.ok (Json.obj []) ∧
    satisfiesAnalysisSchema (Json.obj []) = false ∧
    (Json.obj []).getField "atsScore" = none :=
  ⟨rfl, rfl, rfl⟩

/-- C1 (amended): when the credential is present and the service returns a
non-empty text, a payload satisfying the §3 schema deserializes into an
`AnalysisResult` with all required fields populated, and a text on which
`JSON.parse` throws is rejected as a malformed-response error; but a
syntactically valid JSON payload is returned as the result whether or not its
required fields are present (no shape validation is performed). -/
theorem analysis_response_roundtrip {ε : Type} (jsonParse : String → Option Json)
    (apiKey : Option String) (t : String) (j : Json)
    (hkey : isFalsyStr apiKey = false) (ht : (t == "") = false) :
    (satisfiesAnalysisSchema j = true → (decodeAnalysisResult j).isSome) ∧
    (jsonParse t = none →
      @analyzeResumeWithGemini ε jsonParse apiKey (ServiceResult.resolved (some t)) =
        Except.error (AnalyzeError.malformed t)) ∧
    (jsonParse t = some j →
      @analyzeResumeWithGemini ε jsonParse apiKey (ServiceResult.resolved (some t)) =
        Except.ok j) := by
  have hsome : isFalsyStr (some t) = (t == "") := rfl
  refine ⟨fun hs => decode_isSome_of_schema hs, fun hparse => ?_, fun hparse => ?_⟩ <;>
    simp [analyzeResumeWithGemini, hkey, hsome, ht, hparse]

/-- Witness for the amended C1 at `sampleJson`: the schema-conforming sample
payload decodes fully, and the analyze operation returns it. -/
theorem analysis_response_roundtrip_witness :
    (decodeAnalysisResult sampleJson).isSome ∧
    @analyzeResumeWithGemini String (fun _ => some sampleJson) (some "key")
        (ServiceResult.resolved (some "{}")) = Except.ok sampleJson :=
  ⟨(@analysis_response_roundtrip String (fun _ => some sampleJson) (some "key")
      "{}" sampleJson rfl rfl).1 (by decide),
   (@analysis_response_roundtrip String (fun _ => some sampleJson) (some "key")
      "{}" sampleJson rfl rfl).2.2 rfl⟩

/-- C7: the analyze operation fails with the configuration error whenever the
credential is falsy, independently of the external call's outcome (so before
any request matters, and fatally for every attempt); it surfaces a transport
rejection unchanged; and it fails with the empty-response error when the
service resolves with no text (absent or empty). -/
theorem analyze_error_conditions {ε : Type} (jsonParse : String → Option Json)
    (apiKey : Option String) (response : ServiceResult ε) (k : String) (e : ε)
    (hmissing : isFalsyStr apiKey = true) (hk : isFalsyStr (some k) = false) :
    @analyzeResumeWithGemini ε jsonParse apiKey response =
      Except.error (AnalyzeError.configuration apiKeyMissingMessage) ∧
    @analyzeResumeWithGemini ε jsonParse (some k) (ServiceResult.rejected e) =
      Except.error (AnalyzeError.transport e) ∧
    @analyzeResumeWithGemini ε jsonParse (some k) (ServiceResult.resolved none) =
      Except.error (AnalyzeError.emptyResponse noResponseMessage) ∧
    @analyzeResumeWithGemini ε jsonParse (some k) (ServiceResult.resolved (some "")) =
      Except.error (AnalyzeError.emptyResponse noResponseMessage) := by
  have hnone : isFalsyStr none = true := rfl
  have hempty : isFalsyStr (some "") = true := rfl
  refine ⟨?_, ?_, ?_, ?_⟩ <;>
    simp [analyzeResumeWithGemini, hmissing, hk, hnone, hempty]

/-- Witness for C7: a missing key is a configuration error regardless of the
response; with the key "key", a rejection, an absent text and an empty text
produce the transport and empty-response errors. -/
theorem analyze_error_conditions_witness :
    isFalsyStr none = true ∧ isFalsyStr (some "key") = false ∧
    (@analyzeResumeWithGemini String (fun _ => none) none (ServiceResult.resolved none) =
        Except.error (AnalyzeError.configuration apiKeyMissingMessage) ∧
     @analyzeResumeWithGemini String (fun _ => none) (some "key")
         (ServiceResult.rejected "network down") =
        Except.error (AnalyzeError.transport "network down") ∧
     @analyzeResumeWithGemini String (fun _ => none) (some "key")
         (ServiceResult.resolved none) =
        Except.error (AnalyzeError.emptyResponse noResponseMessage) ∧
     @analyzeResumeWithGemini String (fun _ => none) (some "key")
         (ServiceResult.resolved (some "")) =
        Except.error (AnalyzeError.emptyResponse noResponseMessage)) :=
  ⟨rfl, rfl, @analyze_error_conditions String (fun _ => none) none
    (ServiceResult.resolved none) "key" "network down" rfl rfl⟩

/-- C8: both upload handlers invoke the file-select callback only for a file
of MIME type application/pdf; when the first file in the list has any other
MIME type, no file is ever selected (analysis never starts) and the rejection
alert is shown instead. -/
theorem upload_rejects_non_pdf (disabled : Bool) (files : List JsFile)
    (f g : JsFile) (rest : List JsFile) (hg : g.type ≠ "application/pdf") :
    (handleDrop disabled files = UploadOutcome.selected f → f.type = "application/pdf") ∧
    (handleInputChange files = UploadOutcome.selected f → f.type = "application/pdf") ∧
    (∀ f2, handleDrop disabled (g :: rest) ≠ UploadOutcome.selected f2) ∧
    (∀ f2, handleInputChange (g :: rest) ≠ UploadOutcome.selected f2) ∧
    handleInputChange (g :: rest) = UploadOutcome.alerted pdfAlertMessage ∧
    handleDrop false (g :: rest) = UploadOutcome.alerted pdfAlertMessage := by
  have hinput : ∀ fs f2, handleInputChange fs = UploadOutcome.selected f2 →
      f2.type = "application/pdf" := by
    intro fs f2 h
    match fs with
    | [] => simp [handleInputChange] at h
    | file :: rest2 =>
      by_cases hp : file.type == "application/pdf"
      · have hef : file = f2 := by simpa [handleInputChange, hp] using h
        exact hef ▸ beq_iff_eq.mp hp
      · simp [handleInputChange, hp] at h
  have hdrop : ∀ d fs f2, handleDrop d fs = UploadOutcome.selected f2 →
      f2.type = "application/pdf" := by
    intro d fs f2 h
    match d with
    | true => simp [handleDrop] at h
    | false => exact hinput fs f2 h
  refine ⟨hdrop disabled files f, hinput files f, ?_, ?_, ?_, ?_⟩
  · intro f2 h
    exact hg ((show g = f2 by
      have := hdrop disabled (g :: rest) f2 h
      match disabled with
      | true => simp [handleDrop] at h
      | false =>
        by_cases hp : g.type == "application/pdf"
        · exact absurd (beq_iff_eq.mp hp) hg
        · simp [handleDrop, hp] at h) ▸ hdrop disabled (g :: rest) f2 h)
  · intro f2 h
    by_cases hp : g.type == "application/pdf"
    · exact absurd (beq_iff_eq.mp hp) hg
    · simp [handleInputChange, hp] at h
  · by_cases hp : g.type == "application/pdf"
    · exact absurd (beq_iff_eq.mp hp) hg
    · simp [handleInputChange, hp]
  · by_cases hp : g.type == "application/pdf"
    · exact absurd (beq_iff_eq.mp hp) hg
    · simp [handleDrop, hp]

/-- Witness for C8 at a text/plain file: it is never selected and triggers the
alert. -/
theorem upload_rejects_non_pdf_witness :
    ({ type := "text/plain", size := 100 } : JsFile).type ≠ "application/pdf" ∧
    handleInputChange [{ type := "text/plain", size := 100 }] =
      UploadOutcome.alerted pdfAlertMessage :=
  ⟨by decide,
   (upload_rejects_non_pdf false [] { type := "text/plain", size := 100 }
      { type := "text/plain", size := 100 } [] (by decide)).2.2.2.2.1⟩

/-- A PDF file larger than the advertised 5MB limit. -/
def oversizedPdf : JsFile := { type := "application/pdf", size := 6000000 }

/-- C9 (code bug): the upload boundary performs no size check at all — an
application/pdf file of 6,000,000 bytes, above the advertised 5MB limit, is
still passed to the file-select callback by both handlers, so it is submitted
to the analysis client. -/
theorem oversized_pdf_still_selected :
    handleInputChange [oversizedPdf] = UploadOutcome.selected oversizedPdf ∧
    handleDrop false [oversizedPdf] = UploadOutcome.selected oversizedPdf ∧
    5 * 1024 * 1024 < oversizedPdf.size :=
  ⟨rfl, rfl, by norm_num [oversizedPdf]⟩

/-! ## Application state machine (App.tsx)

The `App` component holds `status`, `result` and `errorMsg`.  `step` models
the state updates its handlers perform: `handleFileSelect` (start), the
`reader.onerror` handler, the two functional `setStatus` updaters applied when
the analysis promise resolves or rejects, `cancelAnalysis` and
`resetAnalysis`. -/

/-- The mutable state of `App`. -/
structure AppState where
  status : AnalysisStatus
  result : Option AnalysisResult
  errorMsg : Option String
deriving DecidableEq, Repr

/-- The state-changing events of `App`.  `resolveError`'s payload is the
thrown error's message when it is an `Error` instance, `none` otherwise. -/
inductive AppEvent where
  | fileSelect
  | readerError
  | resolveSuccess (data : AnalysisResult)
  | resolveError (msg : Option String)
  | cancel
  | reset
deriving DecidableEq, Repr

/-- The generic failure message of `App`. -/
def fallbackErrorMessage : String := "Failed to analyze resume. Please try again."

/-- The message stored on a rejected analysis call:
`err instanceof Error ? err.message : fallback`, then `errorMessage ||
fallback` (an empty message also falls back). -/
def resolveErrorMessage : Option String → String
  | some m => if m == "" then fallbackErrorMessage else m
  | none => fallbackErrorMessage

/-- One state update of `App`.  The resolution events are guarded by
`prevStatus === 'analyzing'` exactly as in the functional `setStatus`
updaters; `reader.onerror` is unguarded; `handleFileSelect` clears only the
error message; cancel and reset clear everything. -/
def step (s : AppState) : AppEvent → AppState
  | AppEvent.fileSelect => { s with status := AnalysisStatus.analyzing, errorMsg := none }
  | AppEvent.readerError =>
      { s with status := AnalysisStatus.error, errorMsg := some "Failed to read file." }
  | AppEvent.resolveSuccess data =>
      if s.status = AnalysisStatus.analyzing then
        { s with status := AnalysisStatus.success, result := some data }
      else s
  | AppEvent.resolveError msg =>
      if s.status = AnalysisStatus.analyzing then
        { s with status := AnalysisStatus.error,
                 errorMsg := some (resolveErrorMessage msg) }
      else s
  | AppEvent.cancel =>
      { status := AnalysisStatus.idle, result := none, errorMsg := none }
  | AppEvent.reset =>
      { status := AnalysisStatus.idle, result := none, errorMsg := none }

/-- C6: the success and error transitions triggered by resolution of the
analysis call are applied only while the state is still `analyzing`: from any
other state they change nothing, and from `analyzing` a cancel followed by a
late-arriving successful response leaves the state exactly where cancel put
it — at `idle`, never at `success`. -/
theorem analyze_resolution_guard (s : AppState) (d : AnalysisResult)
    (m : Option String) (h : s.status ≠ AnalysisStatus.analyzing) :
    step s (AppEvent.resolveSuccess d) = s ∧
    step s (AppEvent.resolveError m) = s ∧
    step (step s AppEvent.cancel) (AppEvent.resolveSuccess d) = step s AppEvent.cancel ∧
    (step (step s AppEvent.cancel) (AppEvent.resolveSuccess d)).status =
      AnalysisStatus.idle := by
  refine ⟨?_, ?_, ?_, ?_⟩ <;> simp [step, h]

/-- Witness for C6 from the state the user reached by cancelling: a stale
successful response does not move it. -/
theorem analyze_resolution_guard_witness :
    step { status := AnalysisStatus.idle, result := none, errorMsg := none }
        (AppEvent.resolveSuccess sampleResult) =
      { status := AnalysisStatus.idle, result := none, errorMsg := none } ∧
    (step (step { status := AnalysisStatus.idle, result := none, errorMsg := none }
        AppEvent.cancel) (AppEvent.resolveSuccess sampleResult)).status =
      AnalysisStatus.idle :=
  ⟨(analyze_resolution_guard
      { status := AnalysisStatus.idle, result := none, errorMsg := none }
      sampleResult none (by decide)).1,
   (analyze_resolution_guard
      { status := AnalysisStatus.idle, result := none, errorMsg := none }
      sampleResult none (by decide)).2.2.2⟩

/-! ### Reachability of the asynchronous application

An analysis attempt registers a `FileReader` callback, whose `onload` in turn
starts the asynchronous analysis call.  Callbacks fire at arbitrary later
times; `cancelAnalysis` does not abort them.  `pendingReaders` counts
registered reader callbacks that have not fired, `pendingCalls` counts
analysis promises not yet settled.  Events carry the availability constraints
of the rendered UI: the upload surface exists only in `idle`, the cancel
button only while `analyzing`, the reset buttons only on the error and
success screens; reader and promise callbacks fire whenever one is pending. -/

/-- The application state together with its outstanding asynchronous
callbacks. -/
structure AsyncState where
  app : AppState
  pendingReaders : Nat
  pendingCalls : Nat
deriving DecidableEq, Repr

/-- States reachable by the application from the initial render. -/
inductive Reachable : AsyncState → Prop where
  | init : Reachable
      { app := { status := AnalysisStatus.idle, result := none, errorMsg := none },
        pendingReaders := 0, pendingCalls := 0 }
  | fileSelect {s : AsyncState} : Reachable s → s.app.status = AnalysisStatus.idle →
      Reachable { app := step s.app AppEvent.fileSelect,
                  pendingReaders := s.pendingReaders + 1,
                  pendingCalls := s.pendingCalls }
  | readerLoad {s : AsyncState} : Reachable s → 1 ≤ s.pendingReaders →
      Reachable { app := s.app, pendingReaders := s.pendingReaders - 1,
                  pendingCalls := s.pendingCalls + 1 }
  | readerError {s : AsyncState} : Reachable s → 1 ≤ s.pendingReaders →
      Reachable { app := step s.app AppEvent.readerError,
                  pendingReaders := s.pendingReaders - 1,
                  pendingCalls := s.pendingCalls }
  | resolveSuccess {s : AsyncState} (d : AnalysisResult) : Reachable s →
      1 ≤ s.pendingCalls →
      Reachable { app := step s.app (AppEvent.resolveSuccess d),
                  pendingReaders := s.pendingReaders,
                  pendingCalls := s.pendingCalls - 1 }
  | resolveError {s : AsyncState} (m : Option String) : Reachable s →
      1 ≤ s.pendingCalls →
      Reachable { app := step s.app (AppEvent.resolveError m),
                  pendingReaders := s.pendingReaders,
                  pendingCalls := s.pendingCalls - 1 }
  | cancel {s : AsyncState} : Reachable s → s.app.status = AnalysisStatus.analyzing →
      Reachable { app := step s.app AppEvent.cancel,
                  pendingReaders := s.pendingReaders,
                  pendingCalls := s.pendingCalls }
  | reset {s : AsyncState} : Reachable s →
      s.app.status = AnalysisStatus.error ∨ s.app.status = AnalysisStatus.success →
      Reachable { app := step s.app AppEvent.reset,
                  pendingReaders := s.pendingReaders,
                  pendingCalls := s.pendingCalls }

/-- C10 counterexample: the trace select, cancel, select again, second attempt
succeeds, first attempt's file-read error fires late, reaches a state with
status `error` and a retained non-null result — the file-read error
transition is unguarded and does not clear the result, so the claimed
invariant "result non-null iff status success" fails on a reachable state. -/
theorem stale_reader_error_keeps_result :
    Reachable { app := { status := AnalysisStatus.error, result := some sampleResult,
                         errorMsg := some "Failed to read file." },
                pendingReaders := 0, pendingCalls := 0 } ∧
    (some sampleResult ≠ (none : Option AnalysisResult)) ∧
    AnalysisStatus.error ≠ AnalysisStatus.success := by
  refine ⟨?_, by simp, by simp⟩
  have h0 := Reachable.init
  have h1 := Reachable.fileSelect h0 rfl
  have h2 := Reachable.cancel h1 rfl
  have h3 := Reachable.fileSelect h2 rfl
  have h4 := Reachable.readerLoad h3 (by norm_num)
  have h5 := Reachable.resolveSuccess sampleResult h4 (by norm_num)
  have h6 := Reachable.readerError h5 (by norm_num)
  simpa [step] using h6

/-- States reachable when every file-read error is delivered while the
application is still `analyzing` — the behaviour when no reader callback from
a superseded attempt outlives a later attempt's resolution. -/
inductive ReachableG : AsyncState → Prop where
  | init : ReachableG
      { app := { status := AnalysisStatus.idle, result := none, errorMsg := none },
        pendingReaders := 0, pendingCalls := 0 }
  | fileSelect {s : AsyncState} : ReachableG s → s.app.status = AnalysisStatus.idle →
      ReachableG { app := step s.app AppEvent.fileSelect,
                   pendingReaders := s.pendingReaders + 1,
                   pendingCalls := s.pendingCalls }
  | readerLoad {s : AsyncState} : ReachableG s → 1 ≤ s.pendingReaders →
      ReachableG { app := s.app, pendingReaders := s.pendingReaders - 1,
                   pendingCalls := s.pendingCalls + 1 }
  | readerError {s : AsyncState} : ReachableG s → 1 ≤ s.pendingReaders →
      s.app.status = AnalysisStatus.analyzing →
      ReachableG { app := step s.app AppEvent.readerError,
                   pendingReaders := s.pendingReaders - 1,
                   pendingCalls := s.pendingCalls }
  | resolveSuccess {s : AsyncState} (d : AnalysisResult) : ReachableG s →
      1 ≤ s.pendingCalls →
      ReachableG { app := step s.app (AppEvent.resolveSuccess d),
                   pendingReaders := s.pendingReaders,
                   pendingCalls := s.pendingCalls - 1 }
  | resolveError {s : AsyncState} (m : Option String) : ReachableG s →
      1 ≤ s.pendingCalls →
      ReachableG { app := step s.app (AppEvent.resolveError m),
                   pendingReaders := s.pendingReaders,
                   pendingCalls := s.pendingCalls - 1 }
  | cancel {s : AsyncState} : ReachableG s → s.app.status = AnalysisStatus.analyzing →
      ReachableG { app := step s.app AppEvent.cancel,
                   pendingReaders := s.pendingReaders,
                   pendingCalls := s.pendingCalls }
  | reset {s : AsyncState} : ReachableG s →
      s.app.status = AnalysisStatus.error ∨ s.app.status = AnalysisStatus.success →
      ReachableG { app := step s.app AppEvent.reset,
                   pendingReaders := s.pendingReaders,
                   pendingCalls := s.pendingCalls }

/-- C10 (amended): in every state reachable from the initial state via file
selection, call resolution, call rejection, file-read error, cancel and reset
— provided each file-read error fires while the status is still `analyzing` —
the held `AnalysisResult` is non-null iff the status is `success`; in
particular the guarded error transition, cancel and reset never leave a stale
result.  (Without that proviso a stale file-read error from a cancelled
attempt can leave status `error` with the previous result retained.) -/
theorem result_iff_success_invariant {s : AsyncState} (h : ReachableG s) :
    s.app.result ≠ none ↔ s.app.status = AnalysisStatus.success := by
  induction h with
  | init => simp
  | @fileSelect s hr hidle ih =>
    have hres : s.app.result = none := by
      by_contra hc
      have hsucc := ih.mp hc
      rw [hsucc] at hidle
      exact absurd hidle (by decide)
    simp [step, hres]
  | @readerLoad s hr hge ih => simpa using ih
  | @readerError s hr hge hana ih =>
    have hres : s.app.result = none := by
      by_contra hc
      have hsucc := ih.mp hc
      rw [hsucc] at hana
      exact absurd hana (by decide)
    simp [step, hres]
  | @resolveSuccess s d hr hge ih =>
    by_cases ha : s.app.status = AnalysisStatus.analyzing
    · simp [step, ha]
    · simpa [step, ha] using ih
  | @resolveError s m hr hge ih =>
    by_cases ha : s.app.status = AnalysisStatus.analyzing
    · have hres : s.app.result = none := by
        by_contra hc
        have hsucc := ih.mp hc
        rw [hsucc] at ha
        exact absurd ha (by decide)
      simp [step, ha, hres]
    · simpa [step, ha] using ih
  | @cancel s hr hana ih => simp [step]
  | @reset s hr hsr ih => simp [step]

/-- Witness for the amended C10 at the concrete reachable state obtained by
selecting a file, the reader loading and the call resolving successfully: the
result is held and the status is `success`. -/
theorem result_iff_success_invariant_witness :
    some sampleResult ≠ (none : Option AnalysisResult) ↔
      AnalysisStatus.success = AnalysisStatus.success := by
  have h1 := ReachableG.fileSelect ReachableG.init rfl
  have h2 := ReachableG.readerLoad h1 (by decide)
  have h3 := ReachableG.resolveSuccess sampleResult h2 (by decide)
  exact result_iff_success_invariant h3

end ResumeAnalyzer
